import Mathlib

/-!
Shallow embedding of the `Talk-Point/go-toolkit` CLI framework
(`pkg/v2/cli/cli.go` and `pkg/v2/cli/helper.go`) and proofs about the
behaviour its specification describes.

Go strings are modelled as Lean `String` (a sequence of characters; all
arguments appearing in the claims are ASCII, where Go's byte-based and
Lean's character-based views coincide).  Go maps (`map[string]string`)
are modelled as association lists in insertion order with
overwrite-on-assignment semantics (`goMapSet`) and `List.lookup` as
read; Go iterates maps in unspecified order, so any order-dependent
rendering (key sorting in `encoding/json`, `fmt` `%v`) is modelled with
the deterministic order Go actually produces (sorted keys).
Go's `nil` slice is distinguished from an empty slice by `Option`
(`none` = nil) exactly where the Go code itself distinguishes them
(`Command.Commands == nil`, `CliRoot.Commands == nil`).
-/

namespace GoToolkit

/-! ### Go `strings` / `strconv` primitives used by the cli package -/

/-- Models Go `strings.HasPrefix(s, pre)`. -/
def goStartsWith (s pre : String) : Bool :=
  pre.data.isPrefixOf s.data

/-- Models Go `strings.TrimPrefix(s, pre)`: removes `pre` once if present. -/
def goTrimStart (s pre : String) : String :=
  if goStartsWith s pre then String.mk (s.data.drop pre.data.length) else s

/-- Models Go `strings.Contains(s, sub)`: `sub` occurs contiguously in `s`. -/
def goContains (s sub : String) : Bool :=
  (List.range (s.data.length + 1)).any fun i => sub.data.isPrefixOf (s.data.drop i)

/-- Models Go `strings.ToLower` (character-wise; identical to Go on ASCII). -/
def goToLower (s : String) : String :=
  String.mk (s.data.map Char.toLower)

/-- Go `unicode.IsSpace` restricted to the ASCII space characters. -/
def goIsSpace (c : Char) : Bool :=
  c == ' ' || c == '\t' || c == '\n' || c == '\r' || c == '\x0b' || c == '\x0c'

/-- Models Go `strings.TrimSpace`: strips space characters from both ends. -/
def goTrimSpace (s : String) : String :=
  String.mk (((s.data.dropWhile goIsSpace).reverse.dropWhile goIsSpace).reverse)

/-- Numeric value of a non-empty all-digit character list (base 10). -/
def digitsVal (cs : List Char) : Option Nat :=
  if cs = [] then none
  else cs.foldl
    (fun acc c =>
      match acc with
      | none => none
      | some n => if c.isDigit then some (n * 10 + (c.toNat - '0'.toNat)) else none)
    (some 0)

/-- Models Go `strconv.Atoi`: optional sign followed by at least one digit.
Go's `int` range check (`ErrRange`) is not modelled — no claim involves
integers outside the machine range. -/
def goAtoi (s : String) : Except String Int :=
  let core : Option Int :=
    match s.data with
    | '+' :: rest => (digitsVal rest).map Int.ofNat
    | '-' :: rest => (digitsVal rest).map (fun n => -(Int.ofNat n))
    | cs => (digitsVal cs).map Int.ofNat
  match core with
  | some n => Except.ok n
  | none => Except.error ("strconv.Atoi: parsing \"" ++ s ++ "\": invalid syntax")

/-! ### Result envelopes (`Data` and its four variants) and formatters -/

/-- The closed set of result envelopes: `DataMessage`, `DataList`,
`DataDetails`, `DataError` from `cli.go`.  A `DataList` item and the
`DataDetails` payload are Go `map[string]string` values, modelled as
association lists. -/
inductive Data where
  | message (text : String)
  | list (title : String) (items : List (List (String × String)))
  | details (title : String) (item : List (String × String))
  | error (text : String)
deriving DecidableEq

/-- The two formatter strategies: `TextFormatter` and `JSONFormatter`. -/
inductive Formatter where
  | text
  | json
deriving DecidableEq

/-- Insertion sort of map entries by key, matching the sorted key order Go
uses when printing or JSON-encoding a `map[string]string`. -/
def insertSorted (p : String × String) : List (String × String) → List (String × String)
  | [] => [p]
  | q :: t => if p.1 ≤ q.1 then p :: q :: t else q :: insertSorted p t

def sortByKey (l : List (String × String)) : List (String × String) :=
  l.foldr insertSorted []

/-- JSON string escaping as done by `encoding/json` (HTML escaping on). -/
def jsonEscapeChar (c : Char) : String :=
  if c = '"' then "\\\""
  else if c = '\\' then "\\\\"
  else if c = '\n' then "\\n"
  else if c = '\r' then "\\r"
  else if c = '\t' then "\\t"
  else if c = '<' then "\\u003c"
  else if c = '>' then "\\u003e"
  else if c = '&' then "\\u0026"
  else if c.toNat < 32 then
    let hexDigit : Nat → Char := fun n =>
      if n < 10 then Char.ofNat ('0'.toNat + n) else Char.ofNat ('a'.toNat + n - 10)
    "\\u00" ++ String.mk [hexDigit (c.toNat / 16), hexDigit (c.toNat % 16)]
  else String.mk [c]

def jsonQuote (s : String) : String :=
  "\"" ++ String.join (s.data.map jsonEscapeChar) ++ "\""

/-- JSON encoding of a `map[string]string` (keys in sorted order, as Go does). -/
def jsonObj (m : List (String × String)) : String :=
  "\x7b" ++ String.intercalate "," ((sortByKey m).map fun p => jsonQuote p.1 ++ ":" ++ jsonQuote p.2) ++ "\x7d"

/-- Models `encoding/json.Marshal` on the four envelope structs, following their
`json:"..."` field tags.  (`Marshal` cannot fail on these closed struct
types, so the result is a plain `String`.) -/
def jsonMarshal : Data → String
  | Data.message m => "\x7b\"message\":" ++ jsonQuote m ++ "\x7d"
  | Data.list t items =>
      "\x7b\"title\":" ++ jsonQuote t ++ ",\"items\":[" ++
        String.intercalate "," (items.map jsonObj) ++ "]\x7d"
  | Data.details t item => "\x7b\"title\":" ++ jsonQuote t ++ ",\"item\":" ++ jsonObj item ++ "\x7d"
  | Data.error m => "\x7b\"error\":" ++ jsonQuote m ++ "\x7d"

/-- Models the `fmt` rendering of a `map[string]string` under `%v` (keys sorted). -/
def mapVerb (m : List (String × String)) : String :=
  "map[" ++ String.intercalate " " ((sortByKey m).map fun p => p.1 ++ ":" ++ p.2) ++ "]"

/-- Models `fmt.Sprintf("%v", data)` on a pointer to one of the envelope structs:
`&{field1 field2 ...}`. -/
def goVerbV : Data → String
  | Data.message m => "&\x7b" ++ m ++ "\x7d"
  | Data.list t items =>
      "&\x7b" ++ t ++ " [" ++ String.intercalate " " (items.map mapVerb) ++ "]\x7d"
  | Data.details t item => "&\x7b" ++ t ++ " " ++ mapVerb item ++ "\x7d"
  | Data.error m => "&\x7b" ++ m ++ "\x7d"

/-- Models `Formatter.Format`: `TextFormatter` uses `fmt.Sprintf("%v", ...)`,
`JSONFormatter` uses `json.Marshal`.  Neither can fail on the closed
envelope set, so the `error` component of the Go return value is dropped. -/
def Formatter.format : Formatter → Data → String
  | Formatter.text, d => goVerbV d
  | Formatter.json, d => jsonMarshal d

/-- Models `Formatter.Type()`. -/
def Formatter.typeName : Formatter → String
  | Formatter.text => "text"
  | Formatter.json => "json"

/-- Models `Data.Display`: a `DataMessage` returns its message unchanged and
ignores the formatter; every other envelope delegates to the formatter. -/
def Data.display (d : Data) (f : Formatter) : String :=
  match d with
  | Data.message m => m
  | d => Formatter.format f d

/-! ### The command tree and the dispatcher -/

/-- Models `Command[T]` from `cli.go`.  The Go `Run` callback also receives the
command itself as its first argument; no behaviour in the claims depends
on that self-reference (and it cannot appear in a strictly positive
inductive), so the callback here takes only the remaining arguments and
the context, returning the Go pair `(Data, error)` as
`Option Data × Option String` (an error is its `Error()` text). -/
inductive Command (T : Type) : Type where
  | mk (use short long exampleText : String)
       (run : List String → T → Option Data × Option String)
       (commands : Option (List (Command T)))

def Command.use : Command T → String
  | Command.mk u _ _ _ _ _ => u

def Command.short : Command T → String
  | Command.mk _ s _ _ _ _ => s

def Command.long : Command T → String
  | Command.mk _ _ l _ _ _ => l

def Command.exampleText : Command T → String
  | Command.mk _ _ _ e _ _ => e

def Command.run : Command T → (List String → T → Option Data × Option String)
  | Command.mk _ _ _ _ r _ => r

def Command.commands : Command T → Option (List (Command T))
  | Command.mk _ _ _ _ _ cs => cs

/-- Models `CliRoot[T]`: context, top-level command slice (`none` = Go `nil`),
and the currently active formatter. -/
structure CliRoot (T : Type) where
  ctx : T
  commands : Option (List (Command T))
  formatter : Formatter

/-- The argument scan at the top of `CliRoot.runCommand` (cli.go:236-245):
every token with string prefix `-json` or `--json` is dropped from the
working list; the formatter is switched to JSON only when the dropped
token is exactly `-json` or `--json`. -/
def scanArgs (fmt : Formatter) : List String → Formatter × List String
  | [] => (fmt, [])
  | a :: rest =>
    if !(goStartsWith a "-json") && !(goStartsWith a "--json") then
      let r := scanArgs fmt rest
      (r.1, a :: r.2)
    else
      if a == "-json" || a == "--json" then scanArgs Formatter.json rest
      else scanArgs fmt rest

/-- Models `CliRoot.Help` (cli.go:269-290).  Note the nil check is on the ROOT
command slice `c.Commands`, not on the `commands` parameter for the
current level. -/
def Help (c : CliRoot T) (commands : List (Command T)) : Option Data × Option String :=
  match c.commands with
  | none => (some (Data.message "No commands found"), none)
  | some _ =>
      (some (Data.list "Available commands"
        (commands.map fun cmd => [("Use", cmd.use), ("Short", cmd.short)])), none)

/-- Models `CliRoot.runCommand` (cli.go:235-267).  The Go method mutates
`c.Formatter`; here the updated `CliRoot` is returned alongside the
`(Data, error)` pair.  The `commands` slice parameter is a plain list:
the body only ranges over it (ranging over a Go nil slice is ranging
over nothing), while nil-ness of child slices is kept in each
`Command.commands`. -/
def runCommand (c : CliRoot T) (commands : List (Command T)) (args : List String) :
    CliRoot T × Option Data × Option String :=
  let s := scanArgs c.formatter args
  let c' : CliRoot T := { c with formatter := s.1 }
  match s.2 with
  | [] => (c', Help c' commands)
  | tok :: rest =>
    if tok == "-help" || tok == "--help" then
      (c', Help c' commands)
    else
      match hm : commands.find? (fun cmd => cmd.use == tok) with
      | none => (c', none, some ("command " ++ tok ++ " not found"))
      | some cmd =>
        match hc : cmd.commands with
        | none =>
            let r := cmd.run rest c'.ctx
            (c', r.1, r.2)
        | some cs => runCommand c' cs rest
termination_by sizeOf commands
decreasing_by
  have h1 : sizeOf cmd < sizeOf commands :=
    List.sizeOf_lt_of_mem (List.mem_of_find?_eq_some hm)
  have h2 : sizeOf cs < sizeOf cmd := by
    cases cmd with
    | mk u sh l e r co =>
      simp only [Command.commands] at hc
      subst hc
      simp only [Command.mk.sizeOf_spec, Option.some.sizeOf_spec]
      omega
  omega

/-- The dispatch entry as used by `CliRoot.Run` / `RunWithCommand`:
resolution starts at the root slice (a Go nil slice ranges as empty). -/
def runCommandTop (c : CliRoot T) (args : List String) :
    CliRoot T × Option Data × Option String :=
  runCommand c (c.commands.getD []) args

/-- Where `CliRoot.Run` writes its single rendered line. -/
inductive RunOutcome where
  | stdout (s : String)
  | stderr (s : String)
  | silent
deriving DecidableEq

/-- Models `CliRoot.Run` (cli.go:210-228), with the process argument vector made
explicit.  On error the text is wrapped in a `DataError`, rendered with
the active formatter and written to stderr (exit 1); on success a
non-nil envelope is rendered and written to stdout.  Render failures
cannot occur in the model (see `Formatter.format`). -/
def Run (c : CliRoot T) (argv : List String) : RunOutcome :=
  let r := runCommandTop c argv
  match r.2.2 with
  | some msg => RunOutcome.stderr (Data.display (Data.error msg) r.1.formatter)
  | none =>
    match r.2.1 with
    | some d => RunOutcome.stdout (Data.display d r.1.formatter)
    | none => RunOutcome.silent

/-- The `Cli` constructor: text formatter by default. -/
def Cli (ctx : T) (cmds : Option (List (Command T))) : CliRoot T :=
  { ctx := ctx, commands := cmds, formatter := Formatter.text }

/-! ### `helper.go`: `ParseArgs` and the reflection-driven input binder -/

/-- Assignment `m[k] = v` on a Go `map[string]string` modelled as an
association list: overwrite the entry if the key exists, else append. -/
def goMapSet (m : List (String × String)) (k v : String) : List (String × String) :=
  if m.any (fun p => p.1 == k) then m.map (fun p => if p.1 == k then (k, v) else p)
  else m ++ [(k, v)]

/-- The index loop of `ParseArgs` (helper.go:20-29): a `-`-prefixed token
becomes a key (one prefix stripped by `strings.TrimPrefix`); the next
token is consumed as its value when it exists and is not itself
`-`-prefixed, otherwise the value is the empty string; tokens without a
`-` prefix that were not consumed as values are skipped. -/
def parseArgsLoop : List (String × String) → List String → List (String × String)
  | m, [] => m
  | m, [a] =>
      if goStartsWith a "-" then goMapSet m (goTrimStart a "-") "" else m
  | m, a :: b :: rest =>
      if goStartsWith a "-" then
        if !(goStartsWith b "-") then parseArgsLoop (goMapSet m (goTrimStart a "-") b) rest
        else parseArgsLoop (goMapSet m (goTrimStart a "-") "") (b :: rest)
      else parseArgsLoop m (b :: rest)

/-- Models `ParseArgs` (helper.go:17-32). -/
def ParseArgs (args : List String) : List (String × String) :=
  parseArgsLoop [] args

/-- Go reflection `Kind` of a struct field, as far as the binder inspects
it: `reflect.String`, `reflect.Int`, `reflect.Ptr` (with the element
kind), and every other kind abstracted by its `Kind().String()` name. -/
inductive GoKind where
  | string
  | int
  | ptr (elem : GoKind)
  | other (kindName : String)
deriving DecidableEq

/-- Models `Kind().String()` as interpolated into the "unsupported type" errors. -/
def GoKind.name : GoKind → String
  | GoKind.string => "string"
  | GoKind.int => "int"
  | GoKind.ptr _ => "ptr"
  | GoKind.other n => n

/-- The value stored in a struct field of one of the kinds above.
`ptrStr none` / `ptrInt none` are Go nil pointers. -/
inductive GoValue where
  | str (s : String)
  | int (n : Int)
  | ptrStr (v : Option String)
  | ptrInt (v : Option Int)
  | other
deriving DecidableEq

/-- One struct field as the binder sees it through reflection: its name,
the value of its `validate` struct tag (`fieldType.Tag.Get("validate")`),
its reflection kind and its current value. -/
structure Field where
  name : String
  tag : String
  kind : GoKind
  value : GoValue
deriving DecidableEq

/-- The coercion switch of `InputFromModel` (helper.go:57-83) applied to
one field and the input text obtained for it: on success the field with
its new value, otherwise the error `InputFromModel` returns. -/
def bindField (f : Field) (input : String) : Except String Field :=
  match f.kind with
  | GoKind.string => Except.ok { f with value := GoValue.str input }
  | GoKind.int =>
      match goAtoi input with
      | Except.ok n => Except.ok { f with value := GoValue.int n }
      | Except.error e => Except.error ("error parsing int: " ++ e)
  | GoKind.ptr GoKind.string => Except.ok { f with value := GoValue.ptrStr (some input) }
  | GoKind.ptr GoKind.int =>
      match goAtoi input with
      | Except.ok n => Except.ok { f with value := GoValue.ptrInt (some n) }
      | Except.error e => Except.error ("error parsing int: " ++ e)
  | GoKind.ptr _ => Except.error "unsupported type: ptr"
  | GoKind.other n => Except.error ("unsupported type: " ++ n)

/-- Observable outcome of one `InputFromModel` call: the field list after
the call (same length as the input; later fields untouched when an error
aborted the loop), the names prompted for on stdout, the returned error
(`none` on success), and the unconsumed remainder of stdin. -/
structure BindResult where
  fields : List Field
  prompts : List String
  err : Option String
  stdin : List String
deriving DecidableEq

/-- The field loop of `InputFromModel` (helper.go:38-84).  Interactive
input is modelled as a list of stdin lines; reading from exhausted stdin
is the read error (`io.EOF`) path.  Non-`required` fields are skipped
outright; a required field's input comes from the supplied map under the
lowercased field name, else from a prompt; the first coercion or read
error is returned at once, leaving that field and all later fields
unmodified. -/
def inputLoop (args : List (String × String)) : List Field → List String → BindResult
  | [], stdin => ⟨[], [], none, stdin⟩
  | f :: rest, stdin =>
    if goContains f.tag "required" then
      match List.lookup (goToLower f.name) args with
      | some input =>
        match bindField f input with
        | Except.ok f' =>
            let r := inputLoop args rest stdin
            ⟨f' :: r.fields, r.prompts, r.err, r.stdin⟩
        | Except.error e => ⟨f :: rest, [], some e, stdin⟩
      | none =>
        match stdin with
        | [] => ⟨f :: rest, [f.name], some "error reading input: EOF", []⟩
        | line :: st =>
          match bindField f (goTrimSpace line) with
          | Except.ok f' =>
              let r := inputLoop args rest st
              ⟨f' :: r.fields, f.name :: r.prompts, r.err, r.stdin⟩
          | Except.error e => ⟨f :: rest, [f.name], some e, st⟩
    else
      let r := inputLoop args rest stdin
      ⟨f :: r.fields, r.prompts, r.err, r.stdin⟩

/-- Models `InputFromModel` (helper.go:34-87) over the field-descriptor view of
the target struct. -/
def InputFromModel (fields : List Field) (args : List (String × String))
    (stdin : List String) : BindResult :=
  inputLoop args fields stdin

/-- Models `Input` (helper.go:12-15): parse the raw arguments, then bind. -/
def Input (fields : List Field) (args : List String) (stdin : List String) : BindResult :=
  InputFromModel fields (ParseArgs args) stdin

/-! ### Helper lemmas -/
variable {T : Type}

lemma runCommand_updated (c : CliRoot T) (args : List String) :
    ({ c with formatter := (scanArgs c.formatter args).1 } : CliRoot T).commands = c.commands := rfl

lemma runCommand_help_empty (c : CliRoot T) (commands : List (Command T)) (args : List String)
    (hf : (scanArgs c.formatter args).2 = []) :
    runCommand c commands args =
      ({ c with formatter := (scanArgs c.formatter args).1 },
        Help { c with formatter := (scanArgs c.formatter args).1 } commands) := by
  rw [runCommand]
  simp [hf]

lemma runCommand_help_tok (c : CliRoot T) (commands : List (Command T)) (args : List String)
    (tok : String) (rest : List String)
    (hf : (scanArgs c.formatter args).2 = tok :: rest)
    (hh : (tok == "-help" || tok == "--help") = true) :
    runCommand c commands args =
      ({ c with formatter := (scanArgs c.formatter args).1 },
        Help { c with formatter := (scanArgs c.formatter args).1 } commands) := by
  rw [runCommand]
  simp [hf, hh]

lemma runCommand_notFound (c : CliRoot T) (commands : List (Command T)) (args : List String)
    (tok : String) (rest : List String)
    (hf : (scanArgs c.formatter args).2 = tok :: rest)
    (hh : (tok == "-help" || tok == "--help") = false)
    (hn : commands.find? (fun cmd => cmd.use == tok) = none) :
    runCommand c commands args =
      ({ c with formatter := (scanArgs c.formatter args).1 }, none,
        some ("command " ++ tok ++ " not found")) := by
  rw [runCommand]
  simp [hf, hh]
  split <;> simp_all

lemma runCommand_leaf (c : CliRoot T) (commands : List (Command T)) (args : List String)
    (tok : String) (rest : List String) (cmd : Command T)
    (hf : (scanArgs c.formatter args).2 = tok :: rest)
    (hh : (tok == "-help" || tok == "--help") = false)
    (hn : commands.find? (fun cmd => cmd.use == tok) = some cmd)
    (hc : cmd.commands = none) :
    runCommand c commands args =
      ({ c with formatter := (scanArgs c.formatter args).1 },
        (cmd.run rest c.ctx).1, (cmd.run rest c.ctx).2) := by
  rw [runCommand]
  simp [hf, hh]
  split <;> simp_all
  subst hn
  split <;> simp_all

lemma runCommand_node (c : CliRoot T) (commands : List (Command T)) (args : List String)
    (tok : String) (rest : List String) (cmd : Command T) (cs : List (Command T))
    (hf : (scanArgs c.formatter args).2 = tok :: rest)
    (hh : (tok == "-help" || tok == "--help") = false)
    (hn : commands.find? (fun cmd => cmd.use == tok) = some cmd)
    (hc : cmd.commands = some cs) :
    runCommand c commands args =
      runCommand { c with formatter := (scanArgs c.formatter args).1 } cs rest := by
  rw [runCommand]
  simp [hf, hh]
  split <;> simp_all
  subst hn
  split <;> simp_all



lemma goStartsWith_self (a : String) : goStartsWith a a = true := by
  simp [goStartsWith]

lemma goStartsWith_of_beq {a x : String} (h : (a == x) = true) : goStartsWith a x = true := by
  have : a = x := by simpa using h
  subst this
  simp [goStartsWith]

/-- Characterization of the `-json` scan: the working list keeps exactly the
tokens not starting with `-json`/`--json`, and the formatter becomes JSON
exactly when a token equal to `-json` or `--json` occurs. -/
lemma scanArgs_spec (fmt : Formatter) (args : List String) :
    scanArgs fmt args =
      ((if args.any (fun a => a == "-json" || a == "--json") then Formatter.json else fmt),
       args.filter (fun a => !(goStartsWith a "-json") && !(goStartsWith a "--json"))) := by
  induction args generalizing fmt with
  | nil => simp [scanArgs]
  | cons a rest ih =>
    by_cases hk : (!(goStartsWith a "-json") && !(goStartsWith a "--json")) = true
    · have h1 : (a == "-json") = false := by
        by_contra h
        have := goStartsWith_of_beq (a := a) (x := "-json") (by simpa using h)
        simp [this] at hk
      have h2 : (a == "--json") = false := by
        by_contra h
        have := goStartsWith_of_beq (a := a) (x := "--json") (by simpa using h)
        simp [this] at hk
      simp [scanArgs, hk, h1, h2, ih]
    · by_cases he : (a == "-json" || a == "--json") = true
      · have : scanArgs fmt (a :: rest) = scanArgs Formatter.json rest := by
          simp [scanArgs, hk, he]
        rw [this, ih]
        simp [he, hk]
      · have : scanArgs fmt (a :: rest) = scanArgs fmt rest := by
          simp [scanArgs, hk, he]
        rw [this, ih]
        simp [he, hk]


/-- Splitting the binder's field loop at an append: once a field errors,
everything after it is returned untouched. -/
lemma inputLoop_append (args : List (String × String)) (xs ys : List Field)
    (stdin : List String) :
    inputLoop args (xs ++ ys) stdin =
      (let r := inputLoop args xs stdin
       match r.err with
       | none =>
          let r2 := inputLoop args ys r.stdin
          ⟨r.fields ++ r2.fields, r.prompts ++ r2.prompts, r2.err, r2.stdin⟩
       | some e => ⟨r.fields ++ ys, r.prompts, some e, r.stdin⟩) := by
  induction xs generalizing stdin with
  | nil => simp [inputLoop]
  | cons f rest ih =>
    by_cases hreq : goContains f.tag "required" = true
    · simp only [List.cons_append, inputLoop, hreq, if_pos]
      cases hlk : List.lookup (goToLower f.name) args with
      | some input =>
        cases hbf : bindField f input with
        | ok f' =>
          simp only [hbf, List.append_eq]
          rw [ih]
          cases herr : (inputLoop args rest stdin).err <;> simp [herr]
        | error e => simp [hbf]
      | none =>
        cases stdin with
        | nil => simp
        | cons line st =>
          cases hbf : bindField f (goTrimSpace line) with
          | ok f' =>
            simp only [hbf, List.append_eq]
            rw [ih]
            cases herr : (inputLoop args rest st).err <;> simp [herr]
          | error e => simp [hbf]
    · simp only [List.cons_append, inputLoop, hreq, if_neg, List.append_eq]
      rw [ih]
      cases herr : (inputLoop args rest stdin).err <;> simp [herr]

/-! ### The claims -/

/-- Claim C1 counterexample: the token `-jsonx` is neither `-json` nor `--json`,
yet the argument scan of `runCommand` removes it (without switching the
formatter), because the code filters by `strings.HasPrefix`, not equality. -/
theorem c1_counterexample :
    scanArgs Formatter.text ["-jsonx"] = (Formatter.text, []) ∧
    "-jsonx" ≠ "-json" ∧ "-jsonx" ≠ "--json" := by
  refine ⟨by decide, by decide, by decide⟩

/-- Claim C1 (amended): `runCommand`'s argument scan removes exactly the tokens
that START with `-json` or `--json`, passing every other token through
unchanged in order, and switches the formatter to the JSON formatter
exactly when a token EQUAL to `-json` or `--json` occurs. -/
theorem c1_theorem (fmt : Formatter) (args : List String) :
    (scanArgs fmt args).2 =
      args.filter (fun a => !(goStartsWith a "-json") && !(goStartsWith a "--json")) ∧
    (scanArgs fmt args).1 =
      (if args.any (fun a => a == "-json" || a == "--json") then Formatter.json else fmt) := by
  rw [scanArgs_spec]
  exact ⟨rfl, rfl⟩

/-- Claim C9: the two specified `ParseArgs` examples, plus the general scan step:
a `-`-prefixed token becomes a key (prefix stripped) whose value is the
next token when that token exists and is not `-`-prefixed, and the empty
string otherwise; non-flag tokens not consumed as values are skipped. -/
theorem c9_theorem :
    ParseArgs ["-name", "test", "-age", "20"] = [("name", "test"), ("age", "20")] ∧
    ParseArgs ["-flag"] = [("flag", "")] ∧
    (∀ m a b rest, goStartsWith a "-" = true → goStartsWith b "-" = false →
      parseArgsLoop m (a :: b :: rest) = parseArgsLoop (goMapSet m (goTrimStart a "-") b) rest) ∧
    (∀ m a b rest, goStartsWith a "-" = true → goStartsWith b "-" = true →
      parseArgsLoop m (a :: b :: rest) = parseArgsLoop (goMapSet m (goTrimStart a "-") "") (b :: rest)) ∧
    (∀ m a, goStartsWith a "-" = true →
      parseArgsLoop m [a] = goMapSet m (goTrimStart a "-") "") ∧
    (∀ m a rest, goStartsWith a "-" = false → parseArgsLoop m (a :: rest) = parseArgsLoop m rest) := by
  refine ⟨by decide, by decide, ?_, ?_, ?_, ?_⟩
  · intro m a b rest ha hb
    simp [parseArgsLoop, ha, hb]
  · intro m a b rest ha hb
    simp [parseArgsLoop, ha, hb]
  · intro m a ha
    simp [parseArgsLoop, ha]
  · intro m a rest ha
    cases rest with
    | nil => simp [parseArgsLoop, ha]
    | cons b t => simp [parseArgsLoop, ha]

/-- Claim C9 witness: the general scan-step clauses of `c9_theorem` applied at
concrete inputs. -/
theorem c9_witness :
    parseArgsLoop [] ["-a", "b", "-c"] = parseArgsLoop (goMapSet [] (goTrimStart "-a" "-") "b") ["-c"] ∧
    parseArgsLoop [] ["-a", "-b"] = parseArgsLoop (goMapSet [] (goTrimStart "-a" "-") "") ["-b"] ∧
    parseArgsLoop [] ["-a"] = goMapSet [] (goTrimStart "-a" "-") "" ∧
    parseArgsLoop [] ["x", "-a"] = parseArgsLoop [] ["-a"] :=
  ⟨c9_theorem.2.2.1 [] "-a" "b" ["-c"] (by decide) (by decide),
   c9_theorem.2.2.2.1 [] "-a" "-b" [] (by decide) (by decide),
   c9_theorem.2.2.2.2.1 [] "-a" (by decide),
   c9_theorem.2.2.2.2.2 [] "x" ["-a"] (by decide)⟩

/-- Claim C10: `ParseArgs` strips a single leading dash only: `--name` yields the
key `-name` (while `-name` yields `name`), and in general a key that kept
a leading dash can never equal the dash-less single-dash key. -/
theorem c10_theorem :
    ParseArgs ["--name"] = [("-name", "")] ∧
    ParseArgs ["-name"] = [("name", "")] ∧
    (∀ cs : List Char, goTrimStart (String.mk ('-' :: '-' :: cs)) "-" = String.mk ('-' :: cs)) ∧
    (∀ cs : List Char, String.mk ('-' :: cs) ≠ String.mk cs) := by
  refine ⟨by decide, by decide, ?_, ?_⟩
  · intro cs
    have hpre : goStartsWith (String.mk ('-' :: '-' :: cs)) "-" = true := by
      simp [goStartsWith]
    simp [goTrimStart, hpre]
  · intro cs h
    rw [String.ext_iff] at h
    simp only [] at h
    exact List.cons_ne_self '-' cs h



/-- Claim C4 counterexample: the field `Name` is required and the supplied map
holds the key `NAME` — the same name up to letter case — yet the binder
does not find it (it lowercases only the field name, not the supplied
keys): the field is prompted and filled from stdin (`"y"`), not from the
supplied value `"x"`. -/
theorem c4_counterexample :
    InputFromModel [⟨"Name", "required", GoKind.string, GoValue.str ""⟩] [("NAME", "x")] ["y"] =
      ⟨[⟨"Name", "required", GoKind.string, GoValue.str "y"⟩], ["Name"], none, []⟩ ∧
    goToLower "NAME" = goToLower "Name" ∧ "NAME" ≠ "Name" := by
  refine ⟨by decide, by decide, by decide⟩

/-- Claim C4 (amended): for a required field, `bind` looks up the LOWERCASED
field name in `suppliedValues`, so only an entry whose key is exactly the
lowercased field name is found; when it is found, the interactive prompt
is never performed for that field (no prompt is recorded and stdin is
left untouched), and processing continues with the coerced value. -/
theorem c4_theorem (args : List (String × String)) (f : Field) (rest : List Field)
    (stdin : List String) (v : String)
    (hreq : goContains f.tag "required" = true)
    (hlk : List.lookup (goToLower f.name) args = some v) :
    inputLoop args (f :: rest) stdin =
      (match bindField f v with
       | Except.ok f' =>
          let r := inputLoop args rest stdin
          ⟨f' :: r.fields, r.prompts, r.err, r.stdin⟩
       | Except.error e => ⟨f :: rest, [], some e, stdin⟩) := by
  simp [inputLoop, hreq, hlk]

/-- Claim C4 witness: a required field `Name` supplied under the key `name` is
bound from the map and not prompted. -/
theorem c4_witness :
    inputLoop [("name", "test")] [⟨"Name", "required", GoKind.string, GoValue.str ""⟩] ["z"] =
      ⟨[⟨"Name", "required", GoKind.string, GoValue.str "test"⟩], [], none, ["z"]⟩ := by
  rw [c4_theorem [("name", "test")] ⟨"Name", "required", GoKind.string, GoValue.str ""⟩ []
    ["z"] "test" (by decide) (by decide)]
  decide

/-- Claim C8: the first coercion failure during binding — a required field whose
supplied (or prompted) text fails `bindField`, covering both the invalid
integer text and the unsupported-type cases — immediately returns that
single error: all fields before it are processed normally, the failing
field itself keeps its old value, every later field is left untouched,
and no further error is collected. -/
theorem c8_theorem (args : List (String × String)) (pre : List Field) (f : Field)
    (post : List Field) (stdin : List String) (e : String)
    (hreq : goContains f.tag "required" = true)
    (hpre : (inputLoop args pre stdin).err = none)
    (hfail :
      (∃ v, List.lookup (goToLower f.name) args = some v ∧ bindField f v = Except.error e) ∨
      (List.lookup (goToLower f.name) args = none ∧
        ∃ line st2, (inputLoop args pre stdin).stdin = line :: st2 ∧
          bindField f (goTrimSpace line) = Except.error e)) :
    ∃ ps2 st2,
      inputLoop args (pre ++ f :: post) stdin =
        ⟨(inputLoop args pre stdin).fields ++ f :: post,
          (inputLoop args pre stdin).prompts ++ ps2, some e, st2⟩ ∧
      (ps2 = [] ∨ ps2 = [f.name]) := by
  rw [inputLoop_append]
  rcases hfail with ⟨v, hlk, hbf⟩ | ⟨hlk, line, st2, hst, hbf⟩
  · refine ⟨[], (inputLoop args pre stdin).stdin, ?_, Or.inl rfl⟩
    simp [hpre, inputLoop, hreq, hlk, hbf]
  · refine ⟨[f.name], st2, ?_, Or.inr rfl⟩
    simp [hpre, hst, inputLoop, hreq, hlk, hbf]

/-- Claim C8 witness: binding `{Name string, Age int, Other string}` (all
required) from `{name: "test", age: "twenty"}` assigns `Name`, fails on
`Age` with the single parse error, and leaves `Age` and `Other`
untouched. -/
theorem c8_witness :
    ∃ ps2 st2,
      inputLoop [("name", "test"), ("age", "twenty")]
          ([⟨"Name", "required", GoKind.string, GoValue.str ""⟩] ++
            ⟨"Age", "required", GoKind.int, GoValue.int 0⟩ ::
              [⟨"Other", "required", GoKind.string, GoValue.str ""⟩]) [] =
        ⟨(inputLoop [("name", "test"), ("age", "twenty")]
            [⟨"Name", "required", GoKind.string, GoValue.str ""⟩] []).fields ++
          ⟨"Age", "required", GoKind.int, GoValue.int 0⟩ ::
            [⟨"Other", "required", GoKind.string, GoValue.str ""⟩],
          (inputLoop [("name", "test"), ("age", "twenty")]
            [⟨"Name", "required", GoKind.string, GoValue.str ""⟩] []).prompts ++ ps2,
          some "error parsing int: strconv.Atoi: parsing \"twenty\": invalid syntax", st2⟩ ∧
      (ps2 = [] ∨ ps2 = ["Age"]) :=
  c8_theorem [("name", "test"), ("age", "twenty")]
    [⟨"Name", "required", GoKind.string, GoValue.str ""⟩]
    ⟨"Age", "required", GoKind.int, GoValue.int 0⟩
    [⟨"Other", "required", GoKind.string, GoValue.str ""⟩] []
    "error parsing int: strconv.Atoi: parsing \"twenty\": invalid syntax"
    (by decide) (by decide)
    (Or.inl ⟨"twenty", by decide, rfl⟩)



/-- Claim C5: at any level, when the first filtered token is not a help flag and
matches no node name at that level, resolution returns the error
`command <token> not found` naming exactly that token.  The conclusion is
the same for every tree satisfying the hypotheses, whatever the nodes'
actions are — no action is invoked. -/
theorem c5_theorem (c : CliRoot T) (commands : List (Command T)) (args : List String)
    (tok : String) (rest : List String)
    (hf : (scanArgs c.formatter args).2 = tok :: rest)
    (hh1 : tok ≠ "-help") (hh2 : tok ≠ "--help")
    (hn : ∀ cmd ∈ commands, cmd.use ≠ tok) :
    runCommand c commands args =
      ({ c with formatter := (scanArgs c.formatter args).1 }, none,
        some ("command " ++ tok ++ " not found")) := by
  apply runCommand_notFound c commands args tok rest hf
  · simp [hh1, hh2]
  · rw [List.find?_eq_none]
    intro cmd hm
    simp [hn cmd hm]

/-- Claim C5 witness: `nope` on a tree with a single `version` leaf. -/
theorem c5_witness :
    runCommand (Cli () (some [Command.mk "version" "" "" ""
        (fun _ _ => (some (Data.message "v"), none)) none]))
      [Command.mk "version" "" "" "" (fun _ _ => (some (Data.message "v"), none)) none]
      ["nope"] =
      (Cli () (some [Command.mk "version" "" "" ""
        (fun _ _ => (some (Data.message "v"), none)) none]),
        none, some ("command " ++ "nope" ++ " not found")) := by
  rw [c5_theorem _ _ ["nope"] "nope" [] (by decide) (by decide) (by decide)
    (by intro cmd hm; simp at hm; subst hm; decide)]
  have hs : (scanArgs Formatter.text ["nope"]).1 = Formatter.text := by decide
  simp [Cli, hs]

/-- Claim C6: at any non-empty level of a tree whose root slice is present, an
empty filtered list or a leading `-help`/`--help` yields the
`Available commands` List, one `{Use, Short}` item per node of the
current level in declaration order — its item count is the number of
nodes at that level. -/
theorem c6_theorem (c : CliRoot T) (commands : List (Command T)) (args : List String)
    (hroot : c.commands.isSome = true)
    (hne : commands ≠ [])
    (hhelp : (scanArgs c.formatter args).2 = [] ∨
      ∃ rest, ((scanArgs c.formatter args).2 = "-help" :: rest ∨
               (scanArgs c.formatter args).2 = "--help" :: rest)) :
    runCommand c commands args =
      ({ c with formatter := (scanArgs c.formatter args).1 },
        some (Data.list "Available commands"
          (commands.map fun cmd => [("Use", cmd.use), ("Short", cmd.short)])), none) ∧
    (commands.map fun cmd => [("Use", cmd.use), ("Short", cmd.short)]).length =
      commands.length := by
  refine ⟨?_, by simp⟩
  obtain ⟨rs, hrs⟩ := Option.isSome_iff_exists.mp hroot
  have hH : runCommand c commands args =
      ({ c with formatter := (scanArgs c.formatter args).1 },
        Help { c with formatter := (scanArgs c.formatter args).1 } commands) := by
    rcases hhelp with hf | ⟨rest, hf | hf⟩
    · exact runCommand_help_empty c commands args hf
    · exact runCommand_help_tok c commands args "-help" rest hf (by decide)
    · exact runCommand_help_tok c commands args "--help" rest hf (by decide)
  rw [hH]
  simp [Help, hrs]

/-- Claim C6 witness: help on a two-node root level. -/
theorem c6_witness :
    runCommand (Cli () (some []))
      [Command.mk "a" "A" "" "" (fun _ _ => (none, none)) none,
       Command.mk "b" "B" "" "" (fun _ _ => (none, none)) none]
      ["--help"] =
      (Cli () (some []),
        some (Data.list "Available commands" [[("Use", "a"), ("Short", "A")],
          [("Use", "b"), ("Short", "B")]]), none) ∧
    ([[("Use", "a"), ("Short", "A")], [("Use", "b"), ("Short", "B")]] :
      List (List (String × String))).length = 2 := by
  have h := c6_theorem (Cli () (some []))
    [Command.mk "a" "A" "" "" (fun _ _ => (none, none)) none,
     Command.mk "b" "B" "" "" (fun _ _ => (none, none)) none]
    ["--help"] (by decide) (by simp) (Or.inr ⟨[], Or.inr (by decide)⟩)
  refine ⟨?_, by decide⟩
  rw [h.1]
  have hs : (scanArgs Formatter.text ["--help"]).1 = Formatter.text := by decide
  simp [Cli, hs, Command.use, Command.short]



/-- An internal node with an EMPTY (non-nil) child slice. -/
def c3sub : Command Unit := Command.mk "sub" "" "" "" (fun _ _ => (none, none)) (some [])

/-- A root whose only node is `c3sub`. -/
def c3tree : CliRoot Unit := Cli () (some [c3sub])

/-- Claim C3 counterexample: resolving `sub` reaches a level with no nodes at all
and an empty filtered list, yet the result is an empty `Available
commands` List, not the `Message` "No commands found": the nil check in
`Help` consults the ROOT slice `c.Commands`, not the current level. -/
theorem c3_counterexample :
    runCommandTop c3tree ["sub"] = (c3tree, some (Data.list "Available commands" []), none) ∧
    (some (Data.list "Available commands" []) : Option Data) ≠
      some (Data.message "No commands found") := by
  refine ⟨?_, by decide⟩
  rw [runCommandTop]
  rw [runCommand_node c3tree (c3tree.commands.getD []) ["sub"] "sub" [] c3sub []
    (by decide) (by decide) rfl rfl]
  rw [runCommand_help_empty _ [] [] (by decide)]
  have h1 : (scanArgs c3tree.formatter ["sub"]).1 = Formatter.text := by decide
  simp [Help, c3tree, Cli, h1, scanArgs]
  decide

/-- Claim C3 (amended): whenever the filtered list is empty or starts with
`-help`/`--help`, the result is the `Message` "No commands found" exactly
when the ROOT command slice is nil; with a non-nil root it is the
`Available commands` List over the CURRENT level's nodes — so an empty
nested level yields an empty List, not the Message. -/
theorem c3_theorem {T : Type} (c : CliRoot T) (commands : List (Command T)) (args : List String)
    (hhelp : (scanArgs c.formatter args).2 = [] ∨
      ∃ rest, ((scanArgs c.formatter args).2 = "-help" :: rest ∨
               (scanArgs c.formatter args).2 = "--help" :: rest)) :
    runCommand c commands args =
      ({ c with formatter := (scanArgs c.formatter args).1 },
        match c.commands with
        | none => (some (Data.message "No commands found"), none)
        | some _ =>
            (some (Data.list "Available commands"
              (commands.map fun cmd => [("Use", cmd.use), ("Short", cmd.short)])), none)) := by
  have hH : runCommand c commands args =
      ({ c with formatter := (scanArgs c.formatter args).1 },
        Help { c with formatter := (scanArgs c.formatter args).1 } commands) := by
    rcases hhelp with hf | ⟨rest, hf | hf⟩
    · exact runCommand_help_empty c commands args hf
    · exact runCommand_help_tok c commands args "-help" rest hf (by decide)
    · exact runCommand_help_tok c commands args "--help" rest hf (by decide)
  rw [hH]
  cases hc : c.commands <;> simp [Help, hc]

/-- Claim C3 witness: with a nil root slice and no arguments, the Message
"No commands found" is produced. -/
theorem c3_witness :
    runCommand (Cli () (none : Option (List (Command Unit)))) [] [] =
      (Cli () none, some (Data.message "No commands found"), none) := by
  have h := c3_theorem (Cli () (none : Option (List (Command Unit)))) [] []
    (Or.inl (by decide))
  rw [h]
  simp [Cli, scanArgs]

/-- The `version` leaf action of the C2 scenario: returns `Message{"v1"}`. -/
def c2act : List String → Unit → Option Data × Option String :=
  fun _ _ => (some (Data.message "v1"), none)

/-- Tree with the single leaf `version` returning `Message{"v1"}`. -/
def c2tree : CliRoot Unit := Cli () (some [Command.mk "version" "" "" "" c2act none])

/-- Resolving `["version", "--json"]` on a one-`version`-leaf tree: the
formatter is switched to JSON and the action runs with an empty
remaining-argument list, whatever the action is. -/
lemma runVersionJson {T : Type} (ctx : T) (g : List String → T → Option Data × Option String) :
    runCommandTop (Cli ctx (some [Command.mk "version" "" "" "" g none])) ["version", "--json"] =
      ({ Cli ctx (some [Command.mk "version" "" "" "" g none]) with formatter := Formatter.json },
        (g [] ctx).1, (g [] ctx).2) := by
  rw [runCommandTop]
  rw [runCommand_leaf (Cli ctx (some [Command.mk "version" "" "" "" g none]))
    ((Cli ctx (some [Command.mk "version" "" "" "" g none])).commands.getD [])
    ["version", "--json"] "version" [] (Command.mk "version" "" "" "" g none)
    (by exact (by decide : (scanArgs Formatter.text ["version", "--json"]).2 = ["version"]))
    (by decide) rfl rfl]
  have hs : (scanArgs Formatter.text ["version", "--json"]).1 = Formatter.json := by decide
  simp [Cli, Command.run, hs]

/-- Claim C2 counterexample: on the specified tree, `resolve(["version","--json"])`
renders the final output as the raw message text `v1` — NOT as the
structured (JSON) encoding of the result, which would be
`{"message":"v1"}` — because `DataMessage.Display` ignores the
formatter. -/
theorem c2_counterexample :
    Run c2tree ["version", "--json"] = RunOutcome.stdout "v1" ∧
    RunOutcome.stdout "v1" ≠ RunOutcome.stdout (jsonMarshal (Data.message "v1")) := by
  constructor
  · rw [Run, c2tree, runVersionJson () c2act]
    simp [c2act, Data.display]
  · decide

/-- Claim C2 (amended): `["version", "--json"]` invokes the `version` action with
an empty remaining-arguments list and switches the formatter to JSON (for
any action body), but the final rendered output for a `Message` result is
its raw text `v1` on stdout — the structured encoding `{"message":"v1"}`
is never applied to a `Message`. -/
theorem c2_theorem {T : Type} (ctx : T) (g : List String → T → Option Data × Option String) :
    runCommandTop (Cli ctx (some [Command.mk "version" "" "" "" g none])) ["version", "--json"] =
      ({ Cli ctx (some [Command.mk "version" "" "" "" g none]) with formatter := Formatter.json },
        (g [] ctx).1, (g [] ctx).2) ∧
    Run c2tree ["version", "--json"] = RunOutcome.stdout "v1" ∧
    jsonMarshal (Data.message "v1") ≠ "v1" := by
  refine ⟨runVersionJson ctx g, ?_, by decide⟩
  rw [Run, c2tree, runVersionJson () c2act]
  simp [c2act, Data.display]



/-- The C7 tree: a top-level `version` leaf with action `f`, and a
top-level internal node `sub` whose children hold a `version` leaf with
action `g`. -/
def c7tree {T : Type} (ctx : T) (f g d : List String → T → Option Data × Option String) :
    CliRoot T :=
  Cli ctx (some [Command.mk "version" "" "" "" f none,
    Command.mk "sub" "" "" "" d (some [Command.mk "version" "" "" "" g none])])

/-- Claim C7: resolving `["sub", "version", rest...]` (for any trailing tokens
that are not `-json`-prefixed) invokes the NESTED `version` action `g`
with exactly the tokens after the matched names — never the top-level
action `f` (the result depends only on `g`). -/
theorem c7_theorem {T : Type} (ctx : T) (f g d : List String → T → Option Data × Option String)
    (rest : List String)
    (hrest : ∀ a ∈ rest, goStartsWith a "-json" = false ∧ goStartsWith a "--json" = false) :
    runCommandTop (c7tree ctx f g d) ("sub" :: "version" :: rest) =
      (c7tree ctx f g d, (g rest ctx).1, (g rest ctx).2) := by
  have hbeq : ∀ a ∈ rest, (a == "-json" || a == "--json") = false := by
    intro a ha
    have h := hrest a ha
    cases hb : (a == "-json" || a == "--json") with
    | false => rfl
    | true =>
      rcases Bool.or_eq_true_iff.mp hb with h1 | h1
      · have : a = "-json" := by simpa using h1
        rw [this] at h
        have := goStartsWith_self "-json"
        simp [this] at h
      · have : a = "--json" := by simpa using h1
        rw [this] at h
        have := goStartsWith_self "--json"
        simp [this] at h
  have hany : rest.any (fun a => a == "-json" || a == "--json") = false := by
    rw [List.any_eq_false]
    intro a ha
    simp [hbeq a ha]
  have hfil : rest.filter (fun a => !(goStartsWith a "-json") && !(goStartsWith a "--json")) = rest := by
    rw [List.filter_eq_self]
    intro a ha
    simp [(hrest a ha).1, (hrest a ha).2]
  have hs0 := scanArgs_spec Formatter.text ("sub" :: "version" :: rest)
  have hsub1 : goStartsWith "sub" "-json" = false := by decide
  have hsub2 : goStartsWith "sub" "--json" = false := by decide
  have hver1 : goStartsWith "version" "-json" = false := by decide
  have hver2 : goStartsWith "version" "--json" = false := by decide
  have hs2 : (scanArgs Formatter.text ("sub" :: "version" :: rest)).2 =
      "sub" :: "version" :: rest := by
    rw [hs0]
    simp [hany, hfil, hsub1, hsub2, hver1, hver2]
  have hs1 : (scanArgs Formatter.text ("sub" :: "version" :: rest)).1 = Formatter.text := by
    rw [hs0]
    simp [hany]
  have hsB := scanArgs_spec Formatter.text ("version" :: rest)
  have hs2b : (scanArgs Formatter.text ("version" :: rest)).2 = "version" :: rest := by
    rw [hsB]
    simp [hany, hfil, hver1, hver2]
  have hs1b : (scanArgs Formatter.text ("version" :: rest)).1 = Formatter.text := by
    rw [hsB]
    simp [hany]
  rw [runCommandTop]
  rw [runCommand_node (c7tree ctx f g d) ((c7tree ctx f g d).commands.getD [])
    ("sub" :: "version" :: rest) "sub" ("version" :: rest)
    (Command.mk "sub" "" "" "" d (some [Command.mk "version" "" "" "" g none]))
    [Command.mk "version" "" "" "" g none]
    (by exact hs2) (by decide) rfl rfl]
  rw [runCommand_leaf
    ({ c7tree ctx f g d with formatter :=
        (scanArgs (c7tree ctx f g d).formatter ("sub" :: "version" :: rest)).1 })
    [Command.mk "version" "" "" "" g none] ("version" :: rest) "version" rest
    (Command.mk "version" "" "" "" g none)
    (by
      show (scanArgs (scanArgs Formatter.text ("sub" :: "version" :: rest)).1
        ("version" :: rest)).2 = "version" :: rest
      rw [hs1]
      exact hs2b)
    (by decide) rfl rfl]
  have hfin : (scanArgs (scanArgs Formatter.text ("sub" :: "version" :: rest)).1
      ("version" :: rest)).1 = Formatter.text := by
    rw [hs1]
    exact hs1b
  simp only [Command.run]
  refine Prod.ext ?_ (by
    show ((g rest _).1, (g rest _).2) = ((g rest ctx).1, (g rest ctx).2)
    rfl)
  show ({ c7tree ctx f g d with formatter := _ } : CliRoot T) = c7tree ctx f g d
  rw [show (scanArgs (c7tree ctx f g d).formatter ("sub" :: "version" :: rest)).1 =
    Formatter.text from hs1]
  rw [hs1b]
  rfl


/-- Claim C7 witness: with no trailing tokens, `["sub", "version"]` runs the
nested action (returning `Message{"nested"}`), not the top-level one. -/
theorem c7_witness :
    runCommandTop (c7tree () (fun _ _ => (some (Data.message "top"), none))
        (fun _ _ => (some (Data.message "nested"), none)) (fun _ _ => (none, none)))
      ["sub", "version"] =
      (c7tree () (fun _ _ => (some (Data.message "top"), none))
        (fun _ _ => (some (Data.message "nested"), none)) (fun _ _ => (none, none)),
        some (Data.message "nested"), none) := by
  have h := c7_theorem () (fun _ _ => (some (Data.message "top"), none))
    (fun _ _ => (some (Data.message "nested"), none)) (fun _ _ => (none, none)) []
    (by intro a ha; simp at ha)
  exact h



end GoToolkit
